import Mathlib

/-!
Verification of the question-generation subsystem of the Let's-prep study-aid
application, embedded shallowly from `src/quiz/utils/question_generator.py`.

Strings are modelled as `List Char` (`Str`); Python's `str.strip`, `str.split`,
`str.replace` and friends are embedded as executable functions on `Str`.
The external model-backed call (OpenAI request plus JSON parsing, lines
294-328 of the source) is modelled by an oracle parameter of type
`Except Unit (List AIItem)`: `Except.error` stands for any raised condition on
that path (missing credential is a separate boolean, empty text is checked in
`generate_questions_ai` itself, timeout and parse failure are oracle errors),
`Except.ok data` stands for a successfully parsed JSON array.  The unseeded
random source (`random.choice`, used only by the fill-in-the-blank builder) is
modelled by a choice function `Nat → List Str → Nat` giving, per loop
iteration, an index into the candidate list (taken modulo its length).
-/

/-- Python strings, modelled as lists of characters. -/
abbrev Str := List Char

/-- Literal helper: the character list of a Lean string literal. -/
def str (x : String) : Str := x.data

/-- The characters Python's `str.strip()` removes (ASCII whitespace). -/
def isSpace (c : Char) : Bool :=
  c = ' ' || c = '\t' || c = '\n' || c = '\r' || c = '\x0b' || c = '\x0c'

/-- The sentence-terminating characters of `_split_sentences` (line 41). -/
def isTerm (c : Char) : Bool :=
  c = '.' || c = '!' || c = '?'

/-- The characters stripped by `.strip(",.")` (lines 54, 190, 191). -/
def isPM (c : Char) : Bool :=
  c = ',' || c = '.'

/-- Python `str.lstrip()`. -/
def stripLeft (xs : Str) : Str := xs.dropWhile isSpace

/-- Python `str.rstrip()`. -/
def stripRight (xs : Str) : Str := (xs.reverse.dropWhile isSpace).reverse

/-- Python `str.strip()`: whitespace removed from both ends. -/
def strip (xs : Str) : Str := stripRight (stripLeft xs)

/-- Python `str.strip(",.")`: commas and periods removed from both ends. -/
def stripPM (xs : Str) : Str :=
  ((xs.dropWhile isPM).reverse.dropWhile isPM).reverse

/-- Python `str.lower()` (ASCII case fold, which is all the source relies on). -/
def lowerStr (xs : Str) : Str := xs.map Char.toLower

/-- `text.replace("\r\n", "\n")` (line 20): one left-to-right pass replacing
non-overlapping CRLF pairs. -/
def crlfToLf : Str → Str
  | [] => []
  | '\r' :: '\n' :: rest => '\n' :: crlfToLf rest
  | c :: rest => c :: crlfToLf rest

/-- `text.replace("\n", " ")` (line 35). -/
def nlToSp (xs : Str) : Str := xs.map (fun c => if c = '\n' then ' ' else c)

/-- `_clean_text` (lines 16-23): basic cleanup plus truncation.  `none` models
Python `None`; `if not text` makes `None` and `""` both yield `""`. -/
def _clean_text (text : Option Str) (max_len : Nat) : Str :=
  match text with
  | none => []
  | some t =>
    if t = [] then []
    else
      let t := strip (crlfToLf t)
      if t.length > max_len then t.take max_len else t

/-- The character-by-character scan of `_split_sentences` (lines 37-45): the
accumulated buffer is kept reversed; a chunk is flushed after each terminal
character, and any trailing partial buffer is flushed at the end. -/
def sentChunks : Str → Str → List Str
  | [], cur => if cur = [] then [] else [cur.reverse]
  | c :: rest, cur =>
    if isTerm c then (c :: cur).reverse :: sentChunks rest []
    else sentChunks rest (c :: cur)

/-- `_split_sentences` (lines 26-48): rough sentence splitter respecting
`.`, `!`, `?`; newlines unified to spaces; only non-empty trimmed chunks kept. -/
def _split_sentences (text : Str) : List Str :=
  if text = [] then []
  else ((sentChunks (nlToSp text) []).map strip).filter (fun s => s ≠ [])

/-- The scan behind Python's no-argument `str.split()`: runs of whitespace
separate tokens and produce no empty tokens. -/
def splitWsAux : Str → Str → List Str
  | [], cur => if cur = [] then [] else [cur.reverse]
  | c :: rest, cur =>
    if isSpace c then
      if cur = [] then splitWsAux rest []
      else cur.reverse :: splitWsAux rest []
    else splitWsAux rest (c :: cur)

/-- Python `base.split()` (line 115 and elsewhere). -/
def splitWs (xs : Str) : List Str := splitWsAux xs []

/-- Python `" ".join(ws)`. -/
def joinSp : List Str → Str
  | [] => []
  | [w] => w
  | w :: ws => w ++ ' ' :: joinSp ws

/-- The stopword set of `_pick_content_word` (line 53). -/
def stopwords : List Str :=
  [str "the", str "and", str "of", str "a", str "an", str "to",
   str "in", str "on", str "for", str "is", str "are"]

/-- `[w for w in words if w.lower().strip(",.") not in stopwords]` (line 54). -/
def contentOf (words : List Str) : List Str :=
  words.filter (fun w => decide (stripPM (lowerStr w) ∉ stopwords))

/-- `_pick_content_word` (lines 51-57): pick a content word, or fall back to
the last word.  `random.choice(content)` is modelled by the `choose` oracle,
whose value is taken modulo the candidate count so that every reachable choice
of the unseeded RNG is represented. -/
def _pick_content_word (choose : List Str → Nat) (words : List Str) : Str :=
  let content := contentOf words
  if content = [] then (words.getLast?).getD []
  else content.getD (choose content % content.length) []

/-- The first-occurrence token replacement of the fill-in-the-blank branch
(lines 180-187): replace the first token equal to `hidden` by `"_____"`. -/
def blankFirst (hidden : Str) : List Str → List Str
  | [] => []
  | w :: ws => if w = hidden then (str "_____") :: ws else w :: blankFirst hidden ws

/-- The question record produced by every generation path (the dict built at
lines 117-127 and 337-347). -/
structure Question where
  type : Str
  prompt : Str
  option_a : Str
  option_b : Str
  option_c : Str
  option_d : Str
  correct_option : Str
  answer_text : Str
  explanation : Str
deriving DecidableEq, Repr

/-- The freshly initialised record of lines 117-127 (all fields empty; `type`
is overwritten by every branch of the generator). -/
def emptyQ : Question :=
  { type := [], prompt := [], option_a := [], option_b := [], option_c := [],
    option_d := [], correct_option := [], answer_text := [], explanation := [] }

/-- The four valid members of the question-type enum (line 81, line 334). -/
def isValidType (q : Str) : Prop :=
  q = str "mcq" ∨ q = str "flashcard" ∨ q = str "fill_blank" ∨ q = str "short_answer"

instance (q : Str) : Decidable (isValidType q) := by
  unfold isValidType; infer_instance

/-- Index of the first occurrence of `pat` as a contiguous substring, mirroring
how Python `str.split(sep, 1)` and `in` locate a separator. -/
def findSubIdx (pat : Str) : Str → Option Nat
  | [] => if pat = [] then some 0 else none
  | c :: rest =>
    if pat.isPrefixOf (c :: rest) then some 0
    else (findSubIdx pat rest).map (· + 1)

/-- The flashcard branch of `generate_questions_simple` (lines 130-151):
term/definition inferred from `" - "`, `" – "` or an early-colon pattern, each
split at its first occurrence; otherwise the first up-to-5 words are the term
and the sentence the definition. -/
def build_flashcard (base : Str) : Question :=
  let words := splitWs base
  let td : Str × Str :=
    match findSubIdx (str " - ") base with
    | some i => (strip (base.take i), strip (base.drop (i + 3)))
    | none =>
      match findSubIdx (str " – ") base with
      | some i => (strip (base.take i), strip (base.drop (i + 3)))
      | none =>
        if ':' ∈ base ∧ (splitWs (base.takeWhile (fun c => c ≠ ':'))).length ≤ 5 then
          match findSubIdx (str ":") base with
          | some i => (strip (base.take i), strip (base.drop (i + 1)))
          | none => (base, base)
        else
          (joinSp (words.take 5), base)
  { emptyQ with
    type := str "flashcard", prompt := td.1, answer_text := td.2, explanation := td.2 }

/-- The stem of the heuristic MCQ (lines 156-161): the first half of the words
when the sentence has more than 10 words, else the whole sentence. -/
def mcqStem (base : Str) : Str :=
  if (splitWs base).length > 10 then
    joinSp ((splitWs base).take ((splitWs base).length / 2))
  else base

/-- The key concept of the heuristic MCQ (lines 156-161): the second half of
the words when the sentence has more than 10 words, else the whole sentence. -/
def mcqConcept (base : Str) : Str :=
  if (splitWs base).length > 10 then
    joinSp ((splitWs base).drop ((splitWs base).length / 2))
  else base

/-- The MCQ branch of `generate_questions_simple` (lines 154-174). -/
def build_mcq (base : Str) : Question :=
  { emptyQ with
    type := str "mcq",
    prompt := str "According to your notes, which statement best matches this idea?\n\n" ++ mcqStem base,
    option_a := mcqConcept base,
    option_b := str "A detail that does not fully match the notes.",
    option_c := str "A statement that contradicts the notes.",
    option_d := str "An unrelated concept.",
    correct_option := str "A",
    answer_text := mcqConcept base,
    explanation := str "Option A is closest to the wording and meaning in the notes." }

/-- The fill-in-the-blank branch of `generate_questions_simple`
(lines 177-195). -/
def build_fill (choose : List Str → Nat) (base : Str) : Question :=
  let words := splitWs base
  if words.length > 4 then
    let hidden := _pick_content_word choose words
    let prompt_words := blankFirst hidden words
    { emptyQ with
      type := str "fill_blank",
      prompt := str "Fill in the missing word or phrase:\n\n" ++ joinSp prompt_words,
      answer_text := stripPM hidden,
      explanation := str "The missing word from the original notes is '" ++ stripPM hidden ++ str "'." }
  else
    { emptyQ with
      type := str "fill_blank", prompt := base, answer_text := base,
      explanation := str "Short sentence used directly as the answer." }

/-- The short-answer branch of `generate_questions_simple` (lines 198-203). -/
def build_short (base : Str) : Question :=
  let words := splitWs base
  { emptyQ with
    type := str "short_answer",
    prompt := str "Briefly explain this idea from your notes:\n\n" ++ joinSp (words.take 7),
    answer_text := base,
    explanation := str "A good answer should capture the main idea of the original sentence." }

/-- The fallback branch of `generate_questions_simple` (lines 206-210),
reached only for a type outside the enum. -/
def build_fallback (base : Str) : Question :=
  { emptyQ with
    type := str "short_answer", prompt := base, answer_text := base,
    explanation := str "This question was generated from a single sentence in your notes." }

/-- The per-sentence branch dispatch of `generate_questions_simple`
(the if/elif chain at lines 130, 154, 177, 198, 206). -/
def buildQuestion (choose : List Str → Nat) (question_type base : Str) : Question :=
  if question_type = str "flashcard" then build_flashcard base
  else if question_type = str "mcq" then build_mcq base
  else if question_type = str "fill_blank" then build_fill choose base
  else if question_type = str "short_answer" then build_short base
  else build_fallback base

/-- The placeholder sentence substituted when segmentation finds nothing
(line 108). -/
def placeholderSentence : Str :=
  str "This is a placeholder sentence because no text was found."

/-- Lines 106-108: the sentence pool, with the placeholder substituted when
the text yields no sentences. -/
def sentencePool (text : Str) : List Str :=
  let sentences := _split_sentences text
  if sentences = [] then [placeholderSentence] else sentences

/-- `generate_questions_simple` (lines 98-214): the heuristic generator.  One
record per loop iteration `i`, built from sentence `i % n_sent`. -/
def generate_questions_simple (pick : Nat → List Str → Nat)
    (text question_type : Str) (num_questions : Nat) : List Question :=
  let sentences := sentencePool text
  (List.range num_questions).map fun i =>
    buildQuestion (pick i) question_type (sentences.getD (i % sentences.length) [])

/-- The parsed JSON object of one question as the model returned it: each
field is `none` when the key is missing (or JSON `null`, which
`item.get(..., "") or ""` also turns into the empty string). -/
structure AIItem where
  type : Option Str
  prompt : Option Str
  option_a : Option Str
  option_b : Option Str
  option_c : Option Str
  option_d : Option Str
  correct_option : Option Str
  answer_text : Option Str
  explanation : Option Str
deriving DecidableEq, Repr

/-- The requested-type normalisation of `generate_questions_ai`
(lines 234-245): the three named types map to themselves, anything else to
`short_answer`. -/
def qtExact (question_type : Str) : Str :=
  if question_type = str "mcq" then str "mcq"
  else if question_type = str "flashcard" then str "flashcard"
  else if question_type = str "fill_blank" then str "fill_blank"
  else str "short_answer"

/-- Lines 333-335: the coerced `type` of one parsed item — missing defaults to
the requested type, and a value outside the enum is forced to it. -/
def coerceType (qt_exact : Str) (item : AIItem) : Str :=
  let item_type := item.type.getD qt_exact
  if isValidType item_type then item_type else qt_exact

/-- Lines 330-357: coerce one parsed object to the question-record shape; for
non-MCQ records the option and correct fields are forced to empty. -/
def coerceItem (qt_exact : Str) (item : AIItem) : Question :=
  let item_type := coerceType qt_exact item
  let q : Question :=
    { type := item_type,
      prompt := strip (item.prompt.getD []),
      option_a := item.option_a.getD [],
      option_b := item.option_b.getD [],
      option_c := item.option_c.getD [],
      option_d := item.option_d.getD [],
      correct_option := item.correct_option.getD [],
      answer_text := strip (item.answer_text.getD []),
      explanation := strip (item.explanation.getD []) }
  if item_type ≠ str "mcq" then
    { q with option_a := [], option_b := [], option_c := [], option_d := [],
             correct_option := [] }
  else q

/-- `generate_questions_ai` (lines 219-359).  The ValueError for empty text
(line 228) is the `Except.error` of the first branch; the service call,
fence-stripping and JSON parse (lines 294-328) are the `parsed` oracle, whose
`Except.error` stands for any exception raised there; a parsed array is
coerced item by item.  `num_questions` and `model_name` only shape the prompt
sent to the service and do not touch the returned records. -/
def generate_questions_ai (text question_type : Str) (num_questions : Int)
    (model_name : Str) (parsed : Except Unit (List AIItem)) :
    Except Unit (List Question) :=
  if text = [] then Except.error ()
  else
    let qt_exact := qtExact question_type
    match parsed with
    | Except.error e => Except.error e
    | Except.ok data => Except.ok (data.map (coerceItem qt_exact))

/-- The question-type normalisation of the orchestrator (lines 80-82): falsy
becomes `"mcq"`, and anything outside the enum becomes `"mcq"`. -/
def normType (question_type : Str) : Str :=
  let q := if question_type = [] then str "mcq" else question_type
  if isValidType q then q else str "mcq"

/-- `generate_questions` (lines 62-93): the orchestrator.  `use_ai`,
`has_key` and `client_some` model `settings.USE_AI_QUESTIONS`,
`bool(os.getenv("OPENAI_API_KEY"))` and `_openai_client is not None`; the
`try/except` around the AI call is the `match` on its `Except` result — any
error falls through to the heuristic generator. -/
def generate_questions (pick : Nat → List Str → Nat)
    (use_ai has_key client_some : Bool) (parsed : Except Unit (List AIItem))
    (text question_type : Str) (num_questions : Int) : List Question :=
  let text := _clean_text (some text) 8000
  let num_questions : Int := max 1 num_questions
  let question_type := normType question_type
  if use_ai ∧ client_some ∧ has_key ∧ text ≠ [] then
    match generate_questions_ai text question_type num_questions (str "gpt-4o-mini") parsed with
    | Except.ok qs => qs
    | Except.error _ => generate_questions_simple pick text question_type num_questions.toNat
  else generate_questions_simple pick text question_type num_questions.toNat

/-- A fixed choice function standing for one concrete run of the RNG. -/
def pickZero : Nat → List Str → Nat := fun _ _ => 0

/-! ### Basic facts about the string helpers -/

lemma splitWsAux_ne_nil : ∀ (xs cur : Str), ∀ w ∈ splitWsAux xs cur, w ≠ [] := by
  intro xs
  induction xs with
  | nil =>
    intro cur w hw
    unfold splitWsAux at hw
    by_cases h : cur = []
    · simp [h] at hw
    · simp only [if_neg h, List.mem_singleton] at hw
      subst hw
      simpa using h
  | cons c rest ih =>
    intro cur w hw
    unfold splitWsAux at hw
    by_cases hs : isSpace c
    · rw [if_pos hs] at hw
      by_cases h : cur = []
      · rw [if_pos h] at hw
        exact ih [] w hw
      · rw [if_neg h] at hw
        rcases List.mem_cons.mp hw with hw | hw
        · subst hw; simpa using h
        · exact ih [] w hw
    · rw [if_neg hs] at hw
      exact ih (c :: cur) w hw

lemma splitWs_mem_ne_nil (xs : Str) : ∀ w ∈ splitWs xs, w ≠ [] :=
  splitWsAux_ne_nil xs []

lemma joinSp_ne_nil {w : Str} {ws : List Str} (hw : w ≠ []) : joinSp (w :: ws) ≠ [] := by
  cases ws with
  | nil => exact hw
  | cons x xs =>
    show w ++ ' ' :: joinSp (x :: xs) ≠ []
    simp

lemma sentencePool_ne_nil (t : Str) : sentencePool t ≠ [] := by
  simp only [sentencePool]
  split
  · simp
  · assumption

lemma sentencePool_mem_ne_nil (t : Str) : ∀ s ∈ sentencePool t, s ≠ [] := by
  intro s hs
  simp only [sentencePool] at hs
  split at hs
  · rcases List.mem_singleton.mp hs with rfl
    decide
  · simp only [_split_sentences] at hs
    split at hs
    · simp at hs
    · exact of_decide_eq_true (List.mem_filter.mp hs).2

lemma gqs_mem {pick : Nat → List Str → Nat} {text qt : Str} {n : Nat} {q : Question}
    (hq : q ∈ generate_questions_simple pick text qt n) :
    ∃ i, ∃ base ∈ sentencePool text, q = buildQuestion (pick i) qt base := by
  simp only [generate_questions_simple, List.mem_map, List.mem_range] at hq
  obtain ⟨i, _, rfl⟩ := hq
  have hlen : 0 < (sentencePool text).length :=
    List.length_pos_iff_ne_nil.mpr (sentencePool_ne_nil text)
  have hlt : i % (sentencePool text).length < (sentencePool text).length :=
    Nat.mod_lt _ hlen
  refine ⟨i, (sentencePool text).getD (i % (sentencePool text).length) [], ?_, rfl⟩
  rw [List.getD_eq_getElem _ _ hlt]
  exact List.getElem_mem hlt

lemma gqs_length (pick : Nat → List Str → Nat) (text qt : Str) (n : Nat) :
    (generate_questions_simple pick text qt n).length = n := by
  simp [generate_questions_simple]

/-! ### Shape of the heuristic builders -/

lemma build_fill_type (ch : List Str → Nat) (base : Str) :
    (build_fill ch base).type = str "fill_blank" := by
  simp only [build_fill]
  split <;> rfl

lemma buildQuestion_type {qt : Str} (h : isValidType qt)
    (ch : List Str → Nat) (base : Str) : (buildQuestion ch qt base).type = qt := by
  rcases h with h | h | h | h <;> subst h
  · rfl
  · rfl
  · exact build_fill_type ch base
  · rfl

lemma mcqConcept_ne_nil (base : Str) (hb : base ≠ []) : mcqConcept base ≠ [] := by
  unfold mcqConcept
  by_cases h : (splitWs base).length > 10
  · rw [if_pos h]
    have hlt : (splitWs base).length / 2 < (splitWs base).length :=
      Nat.div_lt_self (by omega) (by omega)
    have hdrop : (splitWs base).drop ((splitWs base).length / 2) ≠ [] := by
      rw [Ne, List.drop_eq_nil_iff]
      omega
    cases hd : (splitWs base).drop ((splitWs base).length / 2) with
    | nil => exact absurd hd hdrop
    | cons w rest =>
      refine joinSp_ne_nil (splitWs_mem_ne_nil base w ?_)
      exact List.mem_of_mem_drop (hd ▸ List.mem_cons_self w rest)
  · rw [if_neg h]
    exact hb

lemma buildQuestion_nonmcq {ch : List Str → Nat} {qt base : Str}
    (h : (buildQuestion ch qt base).type ≠ str "mcq") :
    (buildQuestion ch qt base).option_a = [] ∧ (buildQuestion ch qt base).option_b = []
    ∧ (buildQuestion ch qt base).option_c = [] ∧ (buildQuestion ch qt base).option_d = []
    ∧ (buildQuestion ch qt base).correct_option = [] := by
  by_cases h1 : qt = str "flashcard"
  · subst h1; exact ⟨rfl, rfl, rfl, rfl, rfl⟩
  by_cases h2 : qt = str "mcq"
  · exfalso; apply h; subst h2; rfl
  by_cases h3 : qt = str "fill_blank"
  · subst h3
    have hq : buildQuestion ch (str "fill_blank") base = build_fill ch base := rfl
    rw [hq]
    simp only [build_fill]
    split
    · exact ⟨rfl, rfl, rfl, rfl, rfl⟩
    · exact ⟨rfl, rfl, rfl, rfl, rfl⟩
  by_cases h4 : qt = str "short_answer"
  · subst h4; exact ⟨rfl, rfl, rfl, rfl, rfl⟩
  · have hq : buildQuestion ch qt base = build_fallback base := by
      unfold buildQuestion
      rw [if_neg h1, if_neg h2, if_neg h3, if_neg h4]
    rw [hq]
    exact ⟨rfl, rfl, rfl, rfl, rfl⟩

/-! ### Shape of the model-backed coercion and of the orchestrator -/

lemma qtExact_valid (q : Str) : isValidType (qtExact q) := by
  unfold qtExact
  split_ifs <;> decide

lemma normType_valid (q : Str) : isValidType (normType q) := by
  simp only [normType]
  by_cases h : isValidType (if q = [] then str "mcq" else q)
  · rw [if_pos h]; exact h
  · rw [if_neg h]; decide

lemma coerceItem_type (qtE : Str) (item : AIItem) :
    (coerceItem qtE item).type = coerceType qtE item := by
  simp only [coerceItem]
  split <;> rfl

lemma coerceType_valid {qtE : Str} (h : isValidType qtE) (item : AIItem) :
    isValidType (coerceType qtE item) := by
  simp only [coerceType]
  split
  · assumption
  · exact h

lemma coerceItem_nonmcq {qtE : Str} {item : AIItem}
    (h : (coerceItem qtE item).type ≠ str "mcq") :
    (coerceItem qtE item).option_a = [] ∧ (coerceItem qtE item).option_b = []
    ∧ (coerceItem qtE item).option_c = [] ∧ (coerceItem qtE item).option_d = []
    ∧ (coerceItem qtE item).correct_option = [] := by
  by_cases hit : coerceType qtE item ≠ str "mcq"
  · simp only [coerceItem]
    rw [if_pos hit]
    exact ⟨rfl, rfl, rfl, rfl, rfl⟩
  · exact absurd (by rw [coerceItem_type]; exact not_ne_iff.mp hit) h

lemma ai_error (t q : Str) (n : Int) (m : Str) (e : Unit) :
    ∃ u, generate_questions_ai t q n m (Except.error e) = Except.error u := by
  unfold generate_questions_ai
  split
  · exact ⟨(), rfl⟩
  · exact ⟨e, rfl⟩

lemma ai_ok {t : Str} (q : Str) (n : Int) (m : Str) (data : List AIItem) (ht : t ≠ []) :
    generate_questions_ai t q n m (Except.ok data)
      = Except.ok (data.map (coerceItem (qtExact q))) := by
  unfold generate_questions_ai
  rw [if_neg ht]

lemma gq_error (pick : Nat → List Str → Nat) (uA hK cS : Bool) (e : Unit)
    (text qt : Str) (n : Int) :
    generate_questions pick uA hK cS (Except.error e) text qt n
      = generate_questions_simple pick (_clean_text (some text) 8000) (normType qt)
          (max 1 n).toNat := by
  simp only [generate_questions]
  split
  · obtain ⟨u, hai⟩ :=
      ai_error (_clean_text (some text) 8000) (normType qt) (max 1 n) (str "gpt-4o-mini") e
    rw [hai]
  · rfl

lemma gq_ok {pick : Nat → List Str → Nat} {uA hK cS : Bool} {data : List AIItem}
    {text qt : Str} {n : Int} (h1 : uA = true) (h2 : cS = true) (h3 : hK = true)
    (h4 : _clean_text (some text) 8000 ≠ []) :
    generate_questions pick uA hK cS (Except.ok data) text qt n
      = data.map (coerceItem (qtExact (normType qt))) := by
  simp only [generate_questions]
  rw [if_pos ⟨h1, h2, h3, h4⟩]
  rw [ai_ok (normType qt) (max 1 n) (str "gpt-4o-mini") data h4]

lemma gq_mem_cases {pick : Nat → List Str → Nat} {uA hK cS : Bool}
    {parsed : Except Unit (List AIItem)} {text qt : Str} {n : Int} {q : Question}
    (hq : q ∈ generate_questions pick uA hK cS parsed text qt n) :
    (∃ item, q = coerceItem (qtExact (normType qt)) item)
    ∨ (∃ i, ∃ base ∈ sentencePool (_clean_text (some text) 8000),
         q = buildQuestion (pick i) (normType qt) base) := by
  cases parsed with
  | error e =>
    rw [gq_error] at hq
    exact Or.inr (gqs_mem hq)
  | ok data =>
    simp only [generate_questions] at hq
    split at hq
    · rename_i h
      rw [ai_ok (normType qt) (max 1 n) (str "gpt-4o-mini") data h.2.2.2] at hq
      have hq' : q ∈ data.map (coerceItem (qtExact (normType qt))) := hq
      obtain ⟨item, _, rfl⟩ := List.mem_map.mp hq'
      exact Or.inl ⟨item, rfl⟩
    · exact Or.inr (gqs_mem hq)

/-! ### The sentence splitter on a single-terminal string -/

lemma isTerm_not_space {p : Char} (hp : isTerm p = true) : isSpace p = false := by
  simp only [isTerm, Bool.or_eq_true, decide_eq_true_eq] at hp
  rcases hp with (h | h) | h <;> subst h <;> decide

lemma isTerm_ne_nl {p : Char} (hp : isTerm p = true) : p ≠ '\n' := by
  intro h
  subst h
  exact absurd hp (by decide)

lemma isSpace_not_term {c : Char} (hc : isSpace c = true) : isTerm c = false := by
  simp only [isSpace, Bool.or_eq_true, decide_eq_true_eq] at hc
  rcases hc with ((((h | h) | h) | h) | h) | h <;> subst h <;> decide

lemma dropWhile_all {p : Char → Bool} : ∀ {l : Str}, (∀ c ∈ l, p c = true) →
    l.dropWhile p = [] := by
  intro l
  induction l with
  | nil => intro _; rfl
  | cons c rest ih =>
    intro h
    rw [List.dropWhile_cons_of_pos (h c (List.mem_cons_self c rest))]
    exact ih fun d hd => h d (List.mem_cons_of_mem c hd)

lemma dropWhile_append_stop {p : Char → Bool} {c : Char} (hc : p c = false) :
    ∀ (a b : Str), (a ++ c :: b).dropWhile p = a.dropWhile p ++ c :: b := by
  intro a
  induction a with
  | nil =>
    intro b
    simp only [List.nil_append, List.dropWhile_cons, hc]
    simp
  | cons x a ih =>
    intro b
    by_cases hx : p x
    · rw [List.cons_append, List.dropWhile_cons_of_pos hx, List.dropWhile_cons_of_pos hx]
      exact ih b
    · rw [List.cons_append, List.dropWhile_cons_of_neg hx, List.dropWhile_cons_of_neg hx]
      simp

lemma strip_append_term {a b : Str} {p : Char} (hp : isSpace p = false)
    (hb : ∀ c ∈ b, isSpace c = true) :
    strip (a ++ p :: b) = a.dropWhile isSpace ++ [p] := by
  unfold strip stripLeft stripRight
  rw [dropWhile_append_stop hp a b]
  rw [List.reverse_append, List.reverse_cons, List.append_assoc, List.singleton_append]
  rw [dropWhile_append_stop hp b.reverse ((a.dropWhile isSpace).reverse)]
  rw [dropWhile_all fun c hc => hb c (List.mem_reverse.mp hc)]
  simp

lemma strip_all_space {b : Str} (hb : ∀ c ∈ b, isSpace c = true) : strip b = [] := by
  unfold strip stripLeft stripRight
  rw [dropWhile_all hb]
  rfl

lemma sentChunks_no_term : ∀ (xs cur : Str), (∀ c ∈ xs, isTerm c = false) →
    sentChunks xs cur = if cur.reverse ++ xs = [] then [] else [cur.reverse ++ xs] := by
  intro xs
  induction xs with
  | nil =>
    intro cur _
    unfold sentChunks
    simp
  | cons c rest ih =>
    intro cur h
    unfold sentChunks
    rw [if_neg (by simp [h c (List.mem_cons_self c rest)])]
    rw [ih (c :: cur) fun d hd => h d (List.mem_cons_of_mem c hd)]
    have hne1 : (c :: cur).reverse ++ rest ≠ [] := by simp
    have hne2 : cur.reverse ++ c :: rest ≠ [] := by simp
    rw [if_neg hne1, if_neg hne2]
    simp

lemma sentChunks_term_split {p : Char} (hp : isTerm p = true) :
    ∀ (a cur b : Str), (∀ c ∈ a, isTerm c = false) →
    sentChunks (a ++ p :: b) cur = (cur.reverse ++ a ++ [p]) :: sentChunks b [] := by
  intro a
  induction a with
  | nil =>
    intro cur b _
    rw [List.nil_append]
    show (if isTerm p = true then (p :: cur).reverse :: sentChunks b []
          else sentChunks b (p :: cur))
        = (cur.reverse ++ [] ++ [p]) :: sentChunks b []
    rw [if_pos hp]
    simp
  | cons c a ih =>
    intro cur b h
    rw [List.cons_append]
    show (if isTerm c = true then (c :: cur).reverse :: sentChunks (a ++ p :: b) []
          else sentChunks (a ++ p :: b) (c :: cur))
        = (cur.reverse ++ c :: a ++ [p]) :: sentChunks b []
    rw [if_neg (by simp [h c (List.mem_cons_self c a)])]
    rw [ih (c :: cur) b fun d hd => h d (List.mem_cons_of_mem c hd)]
    simp

lemma nlToSp_of_no_nl {a : Str} (ha : ∀ c ∈ a, c ≠ '\n') : nlToSp a = a := by
  unfold nlToSp
  rw [List.map_congr_left fun c hc => if_neg (ha c hc)]
  exact List.map_id a

/-! ### The claims -/

/-- A concrete parsed model item with every key missing. -/
def itemBlank : AIItem := ⟨none, none, none, none, none, none, none, none, none⟩

/-- A concrete parsed model item declaring itself an MCQ. -/
def itemMcq : AIItem := ⟨some (str "mcq"), none, none, none, none, none, none, none, none⟩

/-- The single record the heuristic path produces for a one-sentence flashcard
request, used to instantiate hypotheses at a concrete input. -/
def wq4 : Question :=
  (generate_questions_simple pickZero (str "Mitosis is cell division.") (str "flashcard") 1).getD 0 emptyQ

/-- The single record the heuristic path produces for a one-sentence MCQ
request, used to instantiate hypotheses at a concrete input. -/
def wq10 : Question :=
  (generate_questions_simple pickZero (str "Water boils at one hundred degrees.") (str "mcq") 1).getD 0 emptyQ

/-- The MCQ record built from the placeholder sentence. -/
def mcqPlaceholderQ : Question := build_mcq placeholderSentence

/-- C4 (confirmed): every non-MCQ question record produced by any path — the
orchestrator with an arbitrary model oracle, or the heuristic generator called
directly with an arbitrary type — has empty option_a..option_d and
correct_option. -/
theorem nonmcq_options_empty (pick : Nat → List Str → Nat) (uA hK cS : Bool)
    (parsed : Except Unit (List AIItem)) (text qt : Str) (n : Int)
    (qt2 : Str) (n2 : Nat) :
    (∀ q ∈ generate_questions pick uA hK cS parsed text qt n, q.type ≠ str "mcq" →
       q.option_a = [] ∧ q.option_b = [] ∧ q.option_c = [] ∧ q.option_d = []
       ∧ q.correct_option = [])
    ∧ (∀ q ∈ generate_questions_simple pick text qt2 n2, q.type ≠ str "mcq" →
       q.option_a = [] ∧ q.option_b = [] ∧ q.option_c = [] ∧ q.option_d = []
       ∧ q.correct_option = []) := by
  constructor
  · intro q hq ht
    rcases gq_mem_cases hq with ⟨item, rfl⟩ | ⟨i, base, _, rfl⟩
    · exact coerceItem_nonmcq ht
    · exact buildQuestion_nonmcq ht
  · intro q hq ht
    obtain ⟨i, base, _, rfl⟩ := gqs_mem hq
    exact buildQuestion_nonmcq ht

/-- Witness for C4: the flashcard record built from a concrete sentence has
all option fields and the correct_option empty. -/
theorem nonmcq_options_empty_witness :
    wq4.option_a = [] ∧ wq4.option_b = [] ∧ wq4.option_c = [] ∧ wq4.option_d = []
    ∧ wq4.correct_option = [] :=
  (nonmcq_options_empty pickZero false false false (Except.error ())
      (str "Mitosis is cell division.") (str "mcq") 1 (str "flashcard") 1).2
    wq4 (by decide) (by decide)

/-- C6 (amended): for the empty input, type mcq and requested count 5, the
heuristic generator yields exactly five records — one per requested count —
every one of them built from the placeholder sentence; it does not stop after
a single record. -/
theorem empty_text_five_records :
    ∀ pick : Nat → List Str → Nat,
      generate_questions_simple pick [] (str "mcq") 5 = List.replicate 5 mcqPlaceholderQ
      ∧ (generate_questions_simple pick [] (str "mcq") 5).length = 5 :=
  fun _ => ⟨rfl, rfl⟩

/-- Counterexample to C6 as stated: on empty input with requested count 5 the
heuristic generator returns five records, not one. -/
theorem empty_text_count_cex :
    (generate_questions_simple pickZero [] (str "mcq") 5).length = 5
    ∧ (generate_questions_simple pickZero [] (str "mcq") 5).length ≠ 1 := by decide

/-- C8 (confirmed): the text normaliser is total and is exactly the
composition the claim describes — for every input it equals the hard
truncation to the maximum length of the whitespace-trimmed CRLF-to-LF
converted text; `None` and the empty string yield the empty string, and the
output never exceeds the maximum length.  The last conjunct exercises the
conversion and the trimming end to end on a concrete input. -/
theorem clean_text_total (t : Str) (m : Nat) :
    _clean_text none m = []
    ∧ _clean_text (some []) m = []
    ∧ _clean_text (some t) m = (strip (crlfToLf t)).take m
    ∧ (_clean_text (some t) m).length ≤ m
    ∧ _clean_text (some (str "  a\r\nb  ")) 8000 = str "a\nb" := by
  have hmain : ∀ (u : Str) (k : Nat),
      _clean_text (some u) k = (strip (crlfToLf u)).take k := by
    intro u k
    simp only [_clean_text]
    by_cases h0 : u = []
    · rw [if_pos h0]
      subst h0
      rw [show strip (crlfToLf []) = [] from rfl]
      simp
    · rw [if_neg h0]
      by_cases h : (strip (crlfToLf u)).length > k
      · rw [if_pos h]
      · rw [if_neg h]
        exact (List.take_of_length_le (by omega)).symm
  refine ⟨rfl, rfl, hmain t m, ?_, by decide⟩
  rw [hmain t m]
  simp only [List.length_take]
  omega

/-- C9 (confirmed): the heuristic generator always returns exactly the
requested number of records — the placeholder sentence and the cyclic index
`i % n_sent` mean the output is never short. -/
theorem heuristic_exact_count (pick : Nat → List Str → Nat) (text qt : Str)
    (n : Nat) (h : 1 ≤ n) :
    (generate_questions_simple pick text qt n).length = n :=
  gqs_length pick text qt n

/-- Witness for C9: three flashcards requested from a one-sentence text give a
list of length exactly three. -/
theorem heuristic_exact_count_witness :
    (generate_questions_simple pickZero (str "Cells divide.") (str "flashcard") 3).length = 3 :=
  heuristic_exact_count pickZero (str "Cells divide.") (str "flashcard") 3 (by decide)

/-- C10 (confirmed): every heuristic MCQ record has correct_option "A",
option_a equal to answer_text, and the three fixed generic distractors in
option_b..option_d — the position of the correct answer is never randomised. -/
theorem mcq_fixed_answer_key (pick : Nat → List Str → Nat) (text : Str) (n : Nat) :
    ∀ q ∈ generate_questions_simple pick text (str "mcq") n,
      q.correct_option = str "A" ∧ q.option_a = q.answer_text
      ∧ q.option_b = str "A detail that does not fully match the notes."
      ∧ q.option_c = str "A statement that contradicts the notes."
      ∧ q.option_d = str "An unrelated concept." := by
  intro q hq
  obtain ⟨i, base, _, rfl⟩ := gqs_mem hq
  exact ⟨rfl, rfl, rfl, rfl, rfl⟩

/-- Witness for C10: the record built from a concrete sentence has the fixed
key and distractors. -/
theorem mcq_fixed_answer_key_witness :
    wq10.correct_option = str "A" ∧ wq10.option_a = wq10.answer_text
    ∧ wq10.option_b = str "A detail that does not fully match the notes."
    ∧ wq10.option_c = str "A statement that contradicts the notes."
    ∧ wq10.option_d = str "An unrelated concept." :=
  mcq_fixed_answer_key pickZero (str "Water boils at one hundred degrees.") 1 wq10 (by decide)

/-- C1 (amended): the orchestrator is a total function (it is a Lean `def`);
whenever the model-backed path fails — for any reason, the error oracle covers
them all — the result is exactly the heuristic generator's output, of length
exactly max(n, 1); but when the model-backed call succeeds the parsed records
are returned as-is, so the length is whatever the service returned and is not
trimmed to max(n, 1). -/
theorem generate_questions_total_fallback (pick : Nat → List Str → Nat)
    (uA hK cS : Bool) (e : Unit) (data : List AIItem) (text qt : Str) (n : Int) :
    (generate_questions pick uA hK cS (Except.error e) text qt n
       = generate_questions_simple pick (_clean_text (some text) 8000) (normType qt)
           (max 1 n).toNat)
    ∧ (generate_questions pick uA hK cS (Except.error e) text qt n).length = (max 1 n).toNat
    ∧ (uA = true → cS = true → hK = true → _clean_text (some text) 8000 ≠ [] →
        (generate_questions pick uA hK cS (Except.ok data) text qt n).length = data.length) := by
  refine ⟨gq_error pick uA hK cS e text qt n, ?_, ?_⟩
  · rw [gq_error pick uA hK cS e text qt n]
    exact gqs_length _ _ _ _
  · intro h1 h2 h3 h4
    rw [gq_ok h1 h2 h3 h4]
    simp

/-- Witness for C1: a concrete successful model response of one item passes
through unchanged, and the implication's hypotheses hold at this input. -/
theorem generate_questions_total_fallback_witness :
    (generate_questions pickZero true true true (Except.ok [itemBlank])
        (str "hi.") (str "mcq") 2).length = ([itemBlank] : List AIItem).length :=
  (generate_questions_total_fallback pickZero true true true () [itemBlank]
      (str "hi.") (str "mcq") 2).2.2 rfl rfl rfl (by decide)

/-- Counterexample to C1 as stated: with the model path enabled and a parsed
response of two items for a request of n = 1, the orchestrator returns a
sequence longer than max(n, 1). -/
theorem generate_questions_untrimmed_cex :
    ¬ ((generate_questions pickZero true true true (Except.ok [itemBlank, itemBlank])
          (str "hi.") (str "mcq") 1).length ≤ 1) := by decide

/-- C2 (amended): every record the orchestrator returns has a type inside the
four-member enum — an unknown or missing model type is forced to the requested
type — and on the heuristic path (taken on any model failure) every record's
type equals the normalised requested type; but a model record carrying a
different valid enum value keeps it. -/
theorem generate_questions_type_normalized (pick : Nat → List Str → Nat)
    (uA hK cS : Bool) (parsed : Except Unit (List AIItem)) (e : Unit)
    (text qt : Str) (n : Int) :
    (∀ q ∈ generate_questions pick uA hK cS parsed text qt n, isValidType q.type)
    ∧ (∀ q ∈ generate_questions pick uA hK cS (Except.error e) text qt n,
         q.type = normType qt) := by
  constructor
  · intro q hq
    rcases gq_mem_cases hq with ⟨item, rfl⟩ | ⟨i, base, _, rfl⟩
    · rw [coerceItem_type]
      exact coerceType_valid (qtExact_valid (normType qt)) item
    · rw [buildQuestion_type (normType_valid qt)]
      exact normType_valid qt
  · intro q hq
    rw [gq_error] at hq
    obtain ⟨i, base, _, rfl⟩ := gqs_mem hq
    exact buildQuestion_type (normType_valid qt) _ _

/-- Witness for C2: the single record of a concrete fallback run has a valid
enum type. -/
theorem generate_questions_type_normalized_witness :
    isValidType ((generate_questions pickZero false false false (Except.error ())
        [] (str "mcq") 1).getD 0 emptyQ).type :=
  (generate_questions_type_normalized pickZero false false false (Except.error ()) ()
      [] (str "mcq") 1).1 _ (by decide)

/-- Counterexample to C2 as stated: requesting flashcards while the model
returns an item typed "mcq" yields a record whose type is "mcq", not the
normalised requested type "flashcard". -/
theorem model_type_leak_cex :
    normType (str "flashcard") = str "flashcard"
    ∧ ((generate_questions pickZero true true true (Except.ok [itemMcq])
          (str "hi.") (str "flashcard") 1).getD 0 emptyQ).type = str "mcq"
    ∧ str "mcq" ≠ str "flashcard" := by decide

/-- C3 (amended): every heuristic MCQ record has correct_option "A" with
option_a equal to answer_text (so the option at the named position is the
intended concept), all four options non-empty, and the three fixed distractors
pairwise distinct; the full four-way distinctness holds exactly when the
sentence-derived option_a does not collide with one of the three fixed
distractor strings. -/
theorem mcq_heuristic_option_shape (pick : Nat → List Str → Nat) (text : Str) (n : Nat) :
    ∀ q ∈ generate_questions_simple pick text (str "mcq") n,
      q.correct_option = str "A"
      ∧ q.option_a = q.answer_text
      ∧ q.option_a ≠ [] ∧ q.option_b ≠ [] ∧ q.option_c ≠ [] ∧ q.option_d ≠ []
      ∧ q.option_b ≠ q.option_c ∧ q.option_b ≠ q.option_d ∧ q.option_c ≠ q.option_d
      ∧ (q.option_a ≠ q.option_b → q.option_a ≠ q.option_c → q.option_a ≠ q.option_d →
          List.Pairwise (fun x y => x ≠ y)
            [q.option_a, q.option_b, q.option_c, q.option_d]) := by
  intro q hq
  obtain ⟨i, base, hb, rfl⟩ := gqs_mem hq
  have hbase : base ≠ [] := sentencePool_mem_ne_nil text base hb
  have hd : buildQuestion (pick i) (str "mcq") base = build_mcq base := rfl
  rw [hd]
  have hA : (build_mcq base).option_a = mcqConcept base := rfl
  have hAn : (build_mcq base).option_a ≠ [] := by
    rw [hA]; exact mcqConcept_ne_nil base hbase
  have hB : (build_mcq base).option_b = str "A detail that does not fully match the notes." := rfl
  have hC : (build_mcq base).option_c = str "A statement that contradicts the notes." := rfl
  have hD : (build_mcq base).option_d = str "An unrelated concept." := rfl
  refine ⟨rfl, rfl, hAn, ?_, ?_, ?_, ?_, ?_, ?_, ?_⟩
  · rw [hB]; decide
  · rw [hC]; decide
  · rw [hD]; decide
  · rw [hB, hC]; decide
  · rw [hB, hD]; decide
  · rw [hC, hD]; decide
  · intro h1 h2 h3
    refine List.Pairwise.cons ?_ ?_
    · intro y hy
      rcases List.mem_cons.mp hy with rfl | hy
      · exact h1
      rcases List.mem_cons.mp hy with rfl | hy
      · exact h2
      rcases List.mem_cons.mp hy with rfl | hy
      · exact h3
      · exact absurd hy (List.not_mem_nil y)
    · rw [hB, hC, hD]
      decide

/-- The single record the heuristic path produces for a one-sentence MCQ
request, used to instantiate C3's hypotheses at a concrete input. -/
def wq3 : Question :=
  (generate_questions_simple pickZero (str "Cells divide quickly.") (str "mcq") 1).getD 0 emptyQ

/-- Witness for C3: the concrete MCQ record built from a short sentence. -/
theorem mcq_heuristic_option_shape_witness :
    wq3.correct_option = str "A"
    ∧ wq3.option_a = wq3.answer_text
    ∧ wq3.option_a ≠ [] ∧ wq3.option_b ≠ [] ∧ wq3.option_c ≠ [] ∧ wq3.option_d ≠ []
    ∧ wq3.option_b ≠ wq3.option_c ∧ wq3.option_b ≠ wq3.option_d ∧ wq3.option_c ≠ wq3.option_d
    ∧ (wq3.option_a ≠ wq3.option_b → wq3.option_a ≠ wq3.option_c → wq3.option_a ≠ wq3.option_d →
        List.Pairwise (fun x y => x ≠ y)
          [wq3.option_a, wq3.option_b, wq3.option_c, wq3.option_d]) :=
  mcq_heuristic_option_shape pickZero (str "Cells divide quickly.") 1 wq3 (by decide)

/-- Counterexample to C3 as stated: when the source sentence is literally the
fixed option_b distractor text, option_a equals option_b, so the four options
are not pairwise distinct. -/
theorem mcq_distinct_cex :
    ((generate_questions_simple pickZero
        (str "A detail that does not fully match the notes.") (str "mcq") 1).getD 0 emptyQ).option_a
      = ((generate_questions_simple pickZero
        (str "A detail that does not fully match the notes.") (str "mcq") 1).getD 0 emptyQ).option_b
    ∧ ((generate_questions_simple pickZero
        (str "A detail that does not fully match the notes.") (str "mcq") 1).getD 0 emptyQ).type
      = str "mcq" := by decide

/-- C7 (amended): segmentation of a string whose unique terminal punctuation
mark is followed only by whitespace, with no newline before the mark, yields
exactly one sentence equal to the trimmed input.  (The original claim dropped
the two side conditions; see the counterexample.) -/
theorem split_single_terminal (a b : Str) (p : Char)
    (hp : isTerm p = true)
    (ha : ∀ c ∈ a, isTerm c = false ∧ c ≠ '\n')
    (hb : ∀ c ∈ b, isSpace c = true) :
    _split_sentences (a ++ p :: b) = [strip (a ++ p :: b)] := by
  have hne : a ++ p :: b ≠ [] := by simp
  have hps : isSpace p = false := isTerm_not_space hp
  have hmap : nlToSp (a ++ p :: b) = a ++ p :: nlToSp b := by
    have h1 : nlToSp a = a := nlToSp_of_no_nl fun c hc => (ha c hc).2
    have h2 : nlToSp (a ++ p :: b) = nlToSp a ++ nlToSp (p :: b) := by
      unfold nlToSp; rw [List.map_append]
    have h3 : nlToSp (p :: b) = p :: nlToSp b := by
      unfold nlToSp
      rw [List.map_cons, if_neg (isTerm_ne_nl hp)]
    rw [h2, h1, h3]
  have hbs : ∀ c ∈ nlToSp b, isSpace c = true := by
    intro c hc
    simp only [nlToSp, List.mem_map] at hc
    obtain ⟨d, hd, rfl⟩ := hc
    by_cases hdn : d = '\n'
    · rw [if_pos hdn]; decide
    · rw [if_neg hdn]; exact hb d hd
  have hstripall : strip (a ++ p :: b) = a.dropWhile isSpace ++ [p] :=
    strip_append_term hps hb
  have hstrip1 : strip (a ++ [p]) = a.dropWhile isSpace ++ [p] :=
    strip_append_term hps fun c hc => absurd hc (List.not_mem_nil c)
  unfold _split_sentences
  rw [if_neg hne, hmap]
  rw [sentChunks_term_split hp a [] (nlToSp b) fun c hc => (ha c hc).1]
  rw [sentChunks_no_term (nlToSp b) [] fun c hc => isSpace_not_term (hbs c hc)]
  rw [hstripall]
  by_cases hb0 : nlToSp b = []
  · rw [hb0]
    simp only [List.reverse_nil, List.nil_append, List.append_nil, if_pos rfl]
    simp only [List.map_cons, List.map_nil, hstrip1]
    simp [List.filter]
  · rw [if_neg (by simpa using hb0)]
    simp only [List.reverse_nil, List.nil_append]
    simp only [List.map_cons, List.map_nil, hstrip1, strip_all_space hbs]
    simp [List.filter]

/-- Witness for C7: the concrete string "Hello." followed by two spaces has a
terminal period followed only by whitespace and segments to one trimmed
sentence. -/
theorem split_single_terminal_witness :
    _split_sentences (str "Hello" ++ '.' :: str "  ")
      = [strip (str "Hello" ++ '.' :: str "  ")] :=
  split_single_terminal (str "Hello") (str "  ") '.' (by decide) (by decide) (by decide)

/-- Counterexample to C7 as stated: "Hello. world" contains exactly one
terminal punctuation mark, yet segmentation yields two sentences, not one
sentence equal to the trimmed input. -/
theorem split_single_terminal_cex :
    List.countP isTerm (str "Hello. world") = 1
    ∧ (_split_sentences (str "Hello. world")).length = 2
    ∧ _split_sentences (str "Hello. world") ≠ [strip (str "Hello. world")] := by decide

/-- The fill-in-the-blank scenario input of the specification. -/
def scenarioText : Str :=
  str "The mitochondria is the powerhouse of the cell. DNA carries genetic information."

/-- C5 (amended): the heuristic fill-in-the-blank builder is applicable
exactly when the sentence has at least 5 words (`len(words) > 4`); a content
word is picked at random (falling back to the last word when none exists) and
its first token occurrence is replaced entirely — trailing punctuation
included — by "_____", with answer_text the hidden token stripped of commas
and periods; a shorter sentence is used verbatim as both prompt and answer.
For the scenario input, whatever the random choice, the first record's prompt
contains exactly one "_____" token with answer_text a (stripped) token of the
first sentence, while the second record comes from a 4-word sentence and so
has the unchanged sentence as prompt with no blank. -/
theorem fill_blank_threshold_scenario :
    ∀ pick : Nat → List Str → Nat,
      (generate_questions_simple pick scenarioText (str "fill_blank") 2).length = 2
      ∧ ((splitWs ((generate_questions_simple pick scenarioText (str "fill_blank") 2).getD 0 emptyQ).prompt).count (str "_____") = 1
          ∧ ∃ w ∈ splitWs (str "The mitochondria is the powerhouse of the cell."),
              ((generate_questions_simple pick scenarioText (str "fill_blank") 2).getD 0 emptyQ).answer_text = stripPM w)
      ∧ ((generate_questions_simple pick scenarioText (str "fill_blank") 2).getD 1 emptyQ).prompt
          = str "DNA carries genetic information."
      ∧ (splitWs ((generate_questions_simple pick scenarioText (str "fill_blank") 2).getD 1 emptyQ).prompt).count (str "_____") = 0
      ∧ (∀ ch (base : Str), (splitWs base).length ≤ 4 →
           (build_fill ch base).prompt = base ∧ (build_fill ch base).answer_text = base) := by
  intro pick
  have hq0 : (generate_questions_simple pick scenarioText (str "fill_blank") 2).getD 0 emptyQ
      = build_fill (pick 0) (str "The mitochondria is the powerhouse of the cell.") := rfl
  have hpcw : _pick_content_word (pick 0) (splitWs (str "The mitochondria is the powerhouse of the cell."))
      = [str "mitochondria", str "powerhouse", str "cell."].getD
          (pick 0 [str "mitochondria", str "powerhouse", str "cell."] % 3) [] := rfl
  have hfill : build_fill (pick 0) (str "The mitochondria is the powerhouse of the cell.")
      = { emptyQ with
          type := str "fill_blank",
          prompt := str "Fill in the missing word or phrase:\n\n"
            ++ joinSp (blankFirst
                 (_pick_content_word (pick 0) (splitWs (str "The mitochondria is the powerhouse of the cell.")))
                 (splitWs (str "The mitochondria is the powerhouse of the cell."))),
          answer_text := stripPM
            (_pick_content_word (pick 0) (splitWs (str "The mitochondria is the powerhouse of the cell."))),
          explanation := str "The missing word from the original notes is '"
            ++ stripPM (_pick_content_word (pick 0) (splitWs (str "The mitochondria is the powerhouse of the cell.")))
            ++ str "'." } := rfl
  have hk : pick 0 [str "mitochondria", str "powerhouse", str "cell."] % 3 < 3 :=
    Nat.mod_lt _ (by decide)
  have hmain :
      (splitWs ((generate_questions_simple pick scenarioText (str "fill_blank") 2).getD 0 emptyQ).prompt).count (str "_____") = 1
      ∧ ∃ w ∈ splitWs (str "The mitochondria is the powerhouse of the cell."),
          ((generate_questions_simple pick scenarioText (str "fill_blank") 2).getD 0 emptyQ).answer_text = stripPM w := by
    have hsplit : pick 0 [str "mitochondria", str "powerhouse", str "cell."] % 3 = 0
        ∨ pick 0 [str "mitochondria", str "powerhouse", str "cell."] % 3 = 1
        ∨ pick 0 [str "mitochondria", str "powerhouse", str "cell."] % 3 = 2 := by omega
    rcases hsplit with hc | hc | hc
    · have hhid : _pick_content_word (pick 0) (splitWs (str "The mitochondria is the powerhouse of the cell."))
          = str "mitochondria" := by
        have h := hpcw; rw [hc] at h; exact h
      rw [hq0, hfill, hhid]
      exact ⟨by decide, ⟨str "mitochondria", by decide, by decide⟩⟩
    · have hhid : _pick_content_word (pick 0) (splitWs (str "The mitochondria is the powerhouse of the cell."))
          = str "powerhouse" := by
        have h := hpcw; rw [hc] at h; exact h
      rw [hq0, hfill, hhid]
      exact ⟨by decide, ⟨str "powerhouse", by decide, by decide⟩⟩
    · have hhid : _pick_content_word (pick 0) (splitWs (str "The mitochondria is the powerhouse of the cell."))
          = str "cell." := by
        have h := hpcw; rw [hc] at h; exact h
      rw [hq0, hfill, hhid]
      exact ⟨by decide, ⟨str "cell.", by decide, by decide⟩⟩
  refine ⟨rfl, hmain, rfl, rfl, ?_⟩
  intro ch base hlen
  have h4 : ¬ (splitWs base).length > 4 := by omega
  constructor
  · show (build_fill ch base).prompt = base
    simp [build_fill, h4]
  · show (build_fill ch base).answer_text = base
    simp [build_fill, h4]

/-- Counterexample to C5 as stated: in the specification's own scenario the
second sentence has only 4 words, so the second record's prompt is the
unchanged sentence and contains no "_____" token at all — the claimed
"each prompt contains exactly one blank" and the claimed ≥-6-word
applicability threshold both fail on the code. -/
theorem fill_blank_scenario_cex :
    ((generate_questions_simple pickZero scenarioText (str "fill_blank") 2).getD 1 emptyQ).prompt
      = str "DNA carries genetic information."
    ∧ (splitWs ((generate_questions_simple pickZero scenarioText (str "fill_blank") 2).getD 1 emptyQ).prompt).count (str "_____") = 0
    ∧ (splitWs (str "DNA carries genetic information.")).length = 4
    ∧ ((generate_questions_simple pickZero (str "one two three four five") (str "fill_blank") 1).getD 0 emptyQ).prompt
        ≠ str "one two three four five" := by decide
